import Mathlib

/-!
Verification of the migration pipeline in `src/migrate.ts` of
dannysofftie/mysql-mongo-migrate.

The `Migrate` class is embedded shallowly:

* The two filesystem directories the class touches (`data-files/` and
  `mongo-models/`) are modelled as `Option (List (String × String))`:
  `none` means the directory does not exist, `some entries` is the list of
  `(filename, contents)` pairs in directory order (the order `readdirSync`
  returns).  `writeFileSync` / `WriteStream` creation replaces an entry in
  place or appends a fresh one.
* `database.query` is parameterised: `select * from t` becomes a function
  `selectAll : String → Except String String` returning the serialized row
  set (the embedding keeps `JSON.stringify(modelData)` opaque), and
  `describe t` becomes `describe : String → List Column`.
* The `datatypes` lookup object (`src/utils/datatypes`, not part of the
  sources) is parameterised as `dt : String → Option String`; JavaScript
  property access `datatypes[k]` on a missing key yields `undefined`, which
  a template literal renders as the text `"undefined"` — this is captured in
  `typeText`.
* Thrown / rejected errors are modelled with `Except String`; a method that
  can throw after mutating state returns `Except String Unit × MigrateState`
  so that mutations performed before the throw survive, exactly as in the
  JavaScript semantics.
-/

/-- JavaScript `String.prototype.split` with a one-character separator,
on the character list of the string: `"a_b".split('_') = ["a","b"]`,
`"".split('_') = [""]`, `"__".split('_') = ["","",""]`. -/
def splitChar (sep : Char) : List Char → List (List Char)
  | [] => [[]]
  | c :: cs =>
    if c = sep then [] :: splitChar sep cs
    else
      match splitChar sep cs with
      | [] => [[c]]
      | g :: gs => (c :: g) :: gs

/-- JavaScript `s.indexOf(c) !== -1` for a one-character needle. -/
def hasChar (l : List Char) (c : Char) : Bool :=
  l.any (fun x => x == c)

/-- JavaScript `Array.prototype.join('')` on a list of character lists. -/
def concatAll (ls : List (List Char)) : List Char :=
  ls.foldr (fun a b => a ++ b) []

/-- Insert-or-replace on an association list keyed by the first component.
This is both the behaviour of `Map.prototype.set` (replace keeps the entry's
position, a fresh key is appended in insertion order) and of writing a file
into a directory (overwrite an existing name, otherwise create it). -/
def assocSet (m : List (String × String)) (k v : String) : List (String × String) :=
  if m.any (fun p => p.1 == k) then m.map (fun p => if p.1 == k then (k, v) else p)
  else m ++ [(k, v)]

/-- `fs.unlinkSync`: remove a directory entry by name. -/
def fsUnlink (dir : List (String × String)) (name : String) : List (String × String) :=
  dir.filter (fun p => p.1 != name)

/-- Boolean "needle is a leading run of hay" on character lists. -/
def strStartsL (needle : List Char) (hay : List Char) : Bool :=
  match needle, hay with
  | [], _ => true
  | _ :: _, [] => false
  | a :: as, b :: bs => a == b && strStartsL as bs

/-- Boolean "needle occurs contiguously somewhere in hay" on character lists. -/
def strHasL (needle : List Char) : List Char → Bool
  | [] => strStartsL needle []
  | c :: rest => strStartsL needle (c :: rest) || strHasL needle rest

/-- Boolean substring test on strings. -/
def strHas (needle hay : String) : Bool :=
  strHasL needle.data hay.data

/-- One column row of MySQL `describe <table>`, as the `mysqljs` driver
returns it: `Field`, `Type` (e.g. `varchar(255)`), `Null` (`"YES"`/`"NO"`),
`Default` (`none` models the SQL `NULL` default). -/
structure Column where
  field : String
  type : String
  null : String
  default : Option String
deriving DecidableEq, Repr

/-- The mutable state of a `Migrate` instance together with the two
directories it owns.  `models` is `none` until `retrieveModels` has run
(the `undefined` check in `retrieveMysqlData`). -/
structure MigrateState where
  models : Option (List String)
  datafilesdir : Option (List (String × String))
  modelsdirectory : Option (List (String × String))
  modelschemas : List (String × String)
deriving DecidableEq, Repr

/-- The constructor: `modelschemas = new Map()`; the directories are left
as found on disk and the model list is not yet retrieved. -/
def mkMigrate (dataDir modelsDir : Option (List (String × String))) : MigrateState :=
  { models := none, datafilesdir := dataDir, modelsdirectory := modelsDir, modelschemas := [] }

/-- `retrieveModels`: stores the list of base-table names returned by
`show full tables where Table_Type = 'BASE TABLE'` (the query result is a
parameter of the embedding). -/
def retrieveModels (tables : List String) (st : MigrateState) : MigrateState :=
  { st with models := some tables }

/-- The staging loop of `retrieveMysqlData`: for each model run
`select * from <model>` and write `<model>.json`; a rejected query aborts
the loop, leaving the files already written in place. -/
def stageLoop (selectAll : String → Except String String) :
    List String → List (String × String) → Except String Unit × List (String × String)
  | [], dir => (.ok (), dir)
  | m :: ms, dir =>
    match selectAll m with
    | .error e => (.error e, dir)
    | .ok modelData => stageLoop selectAll ms (assocSet dir (m ++ ".json") modelData)

/-- `retrieveMysqlData`: guard on `models`, clear (or create) the
`data-files` directory, then stage every table. -/
def retrieveMysqlData (selectAll : String → Except String String) (st : MigrateState) :
    Except String Unit × MigrateState :=
  match st.models with
  | none => (.error "Call retrieveModels to get MySQL models!", st)
  | some models =>
    let datadir :=
      match st.datafilesdir with
      | some files => files.foldl (fun acc f => fsUnlink acc f.1) files
      | none => ([] : List (String × String))
    let r := stageLoop selectAll models datadir
    (r.1, { st with datafilesdir := some r.2 })

/-- `schemafile.split('.')[0]`: the table name of a staged artifact. -/
def tableNameOf (schemafile : String) : String :=
  String.mk ((splitChar '.' schemafile.data).headD [])

/-- JavaScript `s.slice(0, 1).toUpperCase() + s.slice(1)` (for the
one-code-unit ASCII identifiers at hand this is upper-casing the first
character). -/
def jsCapitalize (s : String) : String :=
  match s.data with
  | [] => ""
  | c :: cs => String.mk (c.toUpper :: cs)

/-- Lines 94–97 of `migrate.ts`: drop underscores by
`split('_').join('')` when one is present, then capitalize the first
character. -/
def normalizeTableName (name : String) : String :=
  let m := if hasChar name.data '_' then String.mk (concatAll (splitChar '_' name.data)) else name
  jsCapitalize m

/-- Model name derived from a staged artifact's filename. -/
def modelNameOf (schemafile : String) : String :=
  normalizeTableName (tableNameOf schemafile)

/-- Spec wording of the normalizer's underscore step: remove underscore
separators, concatenating the surrounding segments. -/
def removeUnderscores (t : String) : String :=
  String.mk (t.data.filter (fun c => c != '_'))

/-- `field.Type.indexOf('(') !== -1 ? field.Type.split('(')[0] : field.Type`:
the base type name with type parameters stripped. -/
def baseTypeOf (rawType : String) : String :=
  if hasChar rawType.data '(' then String.mk ((splitChar '(' rawType.data).headD [])
  else rawType

/-- The text interpolated for `${datatypes[datatype]}`: the mapped target
type, or the text `undefined` when the key is absent from the lookup
object (JavaScript property access on a missing key). -/
def typeText (dt : String → Option String) (rawType : String) : String :=
  match dt (baseTypeOf rawType) with
  | some t => t
  | none => "undefined"

/-- The text interpolated for `${field.Null === 'YES' ? false : true}`. -/
def requiredText (nullFlag : String) : String :=
  if nullFlag = "YES" then "false" else "true"

/-- The text interpolated for
`${field.Default === 'CURRENT_TIMESTAMP' ? 'Date.now' : field.Default}`;
a column without a default interpolates the `null` value as the text
`null`. -/
def defaultText (d : Option String) : String :=
  if d = some "CURRENT_TIMESTAMP" then "Date.now"
  else
    match d with
    | some s => s
    | none => "null"

/-- The per-column chunk appended to `modeldefinition` (the template
literal of lines 112–117, braces and whitespace included). -/
def fieldDefinition (dt : String → Option String) (field : Column) : String :=
  "\n                    " ++ field.field ++ ": \x7b\n                            type: "
    ++ typeText dt field.type
    ++ ",\n                            required: " ++ requiredText field.null
    ++ ",\n                            default: " ++ defaultText field.default
    ++ ",\n                    \x7d,"

/-- The full contents streamed into `<ModelName>.ts`: the mongoose import
line, the `Schema` declaration and the default export. -/
def modelFileContent (dt : String → Option String) (modelname : String)
    (definition : List Column) : String :=
  "import \x7b Schema, model \x7d from \x27mongoose\x27;\n\n"
    ++ "const " ++ modelname ++ " = new Schema(\x7b"
    ++ String.join (definition.map (fieldDefinition dt))
    ++ "\x7d);"
    ++ "\n\n\n\nexport default model(\x27" ++ modelname ++ "\x27, " ++ modelname ++ ");\n"

/-- One iteration of the `for await (const schemafile of schemafiles)` loop:
describe the table, derive the model name, record it in `modelschemas`,
ensure `mongo-models/` exists and write the schema file. -/
def processSchemafile (describe : String → List Column) (dt : String → Option String)
    (st : MigrateState) (schemafile : String) : MigrateState :=
  let tablename := tableNameOf schemafile
  let definition := describe tablename
  let modelname := modelNameOf schemafile
  let dir :=
    match st.modelsdirectory with
    | none => ([] : List (String × String))
    | some d => d
  { st with
      modelschemas := assocSet st.modelschemas schemafile modelname,
      modelsdirectory := some (assocSet dir (modelname ++ ".ts") (modelFileContent dt modelname definition)) }

/-- `generateMongoSchemas`: read the staging directory (a missing directory
makes `readdirSync` throw), fail on an empty directory, delete previously
generated models (errors swallowed), then process every staged artifact. -/
def generateMongoSchemas (describe : String → List Column) (dt : String → Option String)
    (st : MigrateState) : Except String Unit × MigrateState :=
  match st.datafilesdir with
  | none => (.error "ENOENT: no such file or directory", st)
  | some datafiles =>
    let schemafiles := datafiles.map (fun p => p.1)
    if schemafiles.length < 1 then (.error "Empty directory!", st)
    else
      let st1 :=
        { st with
            modelsdirectory :=
              match st.modelsdirectory with
              | none => none
              | some models => some (models.foldl (fun acc f => fsUnlink acc f.1) models) }
      (.ok (), schemafiles.foldl (processSchemafile describe dt) st1)

/-- Observable actions of the loader. -/
inductive LoaderAction where
  | readArtifact : String → LoaderAction
  | consoleLog : String → LoaderAction
  | insertDocument : String → String → LoaderAction
deriving DecidableEq, Repr

/-- Whether an action writes a document into the target store. -/
def LoaderAction.isInsert : LoaderAction → Bool
  | .insertDocument _ _ => true
  | _ => false

/-- The `for (const datafile of this.modelschemas)` loop of `populateMongo`:
each entry reads its artifact (`readFileSync` throws on a missing file) and
`console.log`s the parsed rows.  No other action occurs in the loop body. -/
def loadLoop (datafiles : Option (List (String × String))) :
    List (String × String) → List LoaderAction → Except String (List LoaderAction)
  | [], acc => .ok acc
  | (datafile, _model) :: rest, acc =>
    match (datafiles.getD []).find? (fun p => p.1 == datafile) with
    | none => .error ("ENOENT: no such file or directory, open " ++ datafile)
    | some _entry => loadLoop datafiles rest (acc ++ [.readArtifact datafile, .consoleLog datafile])

/-- `populateMongo`: if the model mapping is non-empty, run the load loop;
otherwise do nothing.  The returned list is every observable action the
method performs. -/
def populateMongo (st : MigrateState) : Except String (List LoaderAction) :=
  if st.modelschemas.length != 0 then loadLoop st.datafilesdir st.modelschemas []
  else .ok []

deriving instance DecidableEq for Except

def specTargetDefault (d : Option String) : Option String :=
  match d with
  | some s => if s = "CURRENT_TIMESTAMP" then some "Date.now" else some s
  | none => none

def selC2 : String → Except String String := fun _ => .ok "[]"

def stC2 : MigrateState :=
  { models := some ["users", "order_items"],
    datafilesdir := some [("stale.json", "old")],
    modelsdirectory := none,
    modelschemas := [] }

def selC9 : String → Except String String :=
  fun t => if t = "users" then .error "ECONNRESET" else .ok ("rows-" ++ t)

def stC9 : MigrateState :=
  { models := some ["customers", "users", "orders"],
    datafilesdir := some [],
    modelsdirectory := none,
    modelschemas := [] }

def stC6 : MigrateState :=
  { models := none,
    datafilesdir := some [],
    modelsdirectory := some [("Old.ts", "previously generated")],
    modelschemas := [("old.json", "Old")] }

def dtC7 : String → Option String := fun t => if t = "int" then some "Number" else none

def describeC7 : String → List Column := fun _ => [⟨"id", "int(11)", "NO", none⟩]

def stC7fresh : MigrateState :=
  { models := none,
    datafilesdir := some [("users.json", "[]")],
    modelsdirectory := some [],
    modelschemas := [] }

def stC7stale : MigrateState :=
  { models := none,
    datafilesdir := some [("users.json", "[]")],
    modelsdirectory := some [],
    modelschemas := [("old.json", "Old")] }

def describeC8 : String → List Column := fun _ => [⟨"shape", "geometry", "NO", none⟩]

def stC8 : MigrateState :=
  { models := none,
    datafilesdir := some [("geo.json", "[]")],
    modelsdirectory := some [],
    modelschemas := [] }

def stC1 : MigrateState :=
  { models := none,
    datafilesdir := some [("users.json", "[]")],
    modelsdirectory := some [("Users.ts", "generated schema")],
    modelschemas := [("users.json", "Users")] }

def describeC10 : String → List Column :=
  fun t =>
    if t = "order_items" then [⟨"qty", "int(11)", "NO", some "1"⟩]
    else [⟨"note", "varchar(255)", "YES", none⟩]

def stC10 : MigrateState :=
  { models := none,
    datafilesdir := some [("order_items.json", "[]"), ("orderitems.json", "[]")],
    modelsdirectory := some [("Stale.ts", "previous run")],
    modelschemas := [] }

theorem strOfData (s : String) : String.mk s.data = s := by
  cases s
  rfl

theorem strDataAppend (a b : String) : (a ++ b).data = a.data ++ b.data := by
  cases a
  cases b
  rfl

theorem strExt (a b : String) (h : a.data = b.data) : a = b := by
  cases a
  cases b
  exact congrArg String.mk h

theorem strAppendAssoc (a b c : String) : (a ++ b) ++ c = a ++ (b ++ c) := by
  apply strExt
  simp [strDataAppend, List.append_assoc]

theorem appendRightCancelS (a b s : String) (h : a ++ s = b ++ s) : a = b := by
  apply strExt
  have hd := congrArg String.data h
  rw [strDataAppend, strDataAppend] at hd
  exact List.append_cancel_right hd

theorem strStartsL_self_append (n m : List Char) : strStartsL n (n ++ m) = true := by
  induction n with
  | nil => rfl
  | cons a as ih => simp [strStartsL, ih]

theorem strStartsL_cancel (a b c : List Char) :
    strStartsL (a ++ b) (a ++ c) = strStartsL b c := by
  induction a with
  | nil => rfl
  | cons x xs ih => simp [strStartsL, ih]

theorem strHasL_of_starts (n h : List Char) (hs : strStartsL n h = true) :
    strHasL n h = true := by
  cases h with
  | nil => simpa [strHasL] using hs
  | cons c rest => simp [strHasL, hs]

theorem strHasL_append_left (n s r : List Char) (h : strHasL n r = true) :
    strHasL n (s ++ r) = true := by
  induction s with
  | nil => simpa using h
  | cons c cs ih => simp [strHasL, ih]

theorem strHas_extend (n s r : String) (h : strHas n r = true) : strHas n (s ++ r) = true := by
  unfold strHas at *
  rw [strDataAppend]
  exact strHasL_append_left _ _ _ h

theorem strHas_of_starts (n h : String) (hs : strStartsL n.data h.data = true) :
    strHas n h = true :=
  strHasL_of_starts _ _ hs

theorem strStarts_cancelS (a b c : String) :
    strStartsL (a ++ b).data (a ++ c).data = strStartsL b.data c.data := by
  rw [strDataAppend, strDataAppend, strStartsL_cancel]

theorem strStarts_selfS (a b : String) : strStartsL a.data (a ++ b).data = true := by
  rw [strDataAppend]
  exact strStartsL_self_append _ _

theorem splitChar_ne_nil (sep : Char) (l : List Char) : splitChar sep l ≠ [] := by
  cases l with
  | nil => simp [splitChar]
  | cons c cs =>
    simp only [splitChar]
    by_cases h : c = sep
    · simp [h]
    · simp only [h, if_false]
      cases hs : splitChar sep cs with
      | nil => simp
      | cons g gs => simp

theorem concatAll_splitChar (sep : Char) (l : List Char) :
    concatAll (splitChar sep l) = l.filter (fun c => c != sep) := by
  induction l with
  | nil => rfl
  | cons c cs ih =>
    simp only [splitChar]
    by_cases h : c = sep
    · subst h
      simp only [if_pos rfl, List.filter]
      have hcc : (c != c) = false := by simp
      rw [hcc]
      simpa [concatAll] using ih
    · simp only [h, if_false]
      cases hs : splitChar sep cs with
      | nil => exact absurd hs (splitChar_ne_nil sep cs)
      | cons g gs =>
        rw [hs] at ih
        have hcc : (c != sep) = true := by simp [h]
        simp only [List.filter, hcc]
        simp only [concatAll, List.foldr] at ih ⊢
        rw [List.cons_append, ih]

theorem splitChar_append_sep (sep : Char) (l r : List Char) (h : ∀ c ∈ l, c ≠ sep) :
    splitChar sep (l ++ sep :: r) = l :: splitChar sep r := by
  induction l with
  | nil => simp [splitChar]
  | cons c cs ih =>
    have hc : c ≠ sep := h c (List.mem_cons_self c cs)
    simp only [List.cons_append, splitChar, hc, if_false]
    have := ih (fun x hx => h x (List.mem_cons_of_mem c hx))
    rw [show cs.append (sep :: r) = cs ++ sep :: r from rfl, this]

theorem hasChar_false (l : List Char) (c : Char) (h : hasChar l c = false) :
    ∀ x ∈ l, x ≠ c := by
  intro x hx
  unfold hasChar at h
  rw [List.any_eq_false] at h
  have := h x hx
  simpa using this

theorem foldl_unlink_nil (fs : List (String × String)) :
    ∀ l : List (String × String), (∀ p ∈ l, ∃ q ∈ fs, q.1 = p.1) →
      fs.foldl (fun acc f => fsUnlink acc f.1) l = [] := by
  induction fs with
  | nil =>
    intro l h
    cases l with
    | nil => rfl
    | cons p ps =>
      obtain ⟨q, hq, _⟩ := h p (List.mem_cons_self p ps)
      exact absurd hq (List.not_mem_nil q)
  | cons f fs ih =>
    intro l h
    simp only [List.foldl_cons]
    apply ih
    intro p hp
    unfold fsUnlink at hp
    rw [List.mem_filter] at hp
    obtain ⟨hpl, hpne⟩ := hp
    obtain ⟨q, hq, hqe⟩ := h p hpl
    rcases List.mem_cons.mp hq with hqf | hqfs
    · exfalso
      subst hqf
      rw [hqe] at hpne
      simp at hpne
    · exact ⟨q, hqfs, hqe⟩

theorem assocSet_fresh (m : List (String × String)) (k v : String)
    (h : ∀ p ∈ m, p.1 ≠ k) : assocSet m k v = m ++ [(k, v)] := by
  unfold assocSet
  have : (m.any fun p => p.1 == k) = false := by
    rw [List.any_eq_false]
    intro p hp
    simpa using h p hp
  rw [this]
  simp

theorem assocSet_nil (k v : String) : assocSet [] k v = [(k, v)] := by
  simp [assocSet]

theorem assocSet_replace_single (k v1 v2 : String) :
    assocSet [(k, v1)] k v2 = [(k, v2)] := by
  simp [assocSet]

theorem stageLoop_ok (selectAll : String → Except String String) (data : String → String) :
    ∀ (T : List String) (dir : List (String × String)), T.Nodup →
      (∀ t ∈ T, selectAll t = .ok (data t)) →
      (∀ t ∈ T, ∀ p ∈ dir, p.1 ≠ t ++ ".json") →
      stageLoop selectAll T dir = (.ok (), dir ++ T.map (fun t => (t ++ ".json", data t))) := by
  intro T
  induction T with
  | nil => intro dir _ _ _; simp [stageLoop]
  | cons t ts ih =>
    intro dir hnd hok hfresh
    have hsel : selectAll t = .ok (data t) := hok t (List.mem_cons_self t ts)
    simp only [stageLoop, hsel]
    rw [assocSet_fresh dir (t ++ ".json") (data t)
      (fun p hp => hfresh t (List.mem_cons_self t ts) p hp)]
    rw [ih (dir ++ [(t ++ ".json", data t)]) (List.Nodup.of_cons hnd)
      (fun u hu => hok u (List.mem_cons_of_mem t hu))
      ?_]
    · simp
    · intro u hu p hp
      rcases List.mem_append.mp hp with hpd | hpn
      · exact hfresh u (List.mem_cons_of_mem t hu) p hpd
      · rw [List.mem_singleton] at hpn
        subst hpn
      
        intro hcontra
        have : t = u := by
          have := appendRightCancelS t u ".json" hcontra
          exact this
        subst this
        exact (List.nodup_cons.mp hnd).1 hu

theorem stageLoop_split (selectAll : String → Except String String) (data : String → String) :
    ∀ (pre rest : List String) (dir : List (String × String)), pre.Nodup →
      (∀ t ∈ pre, selectAll t = .ok (data t)) →
      (∀ t ∈ pre, ∀ p ∈ dir, p.1 ≠ t ++ ".json") →
      stageLoop selectAll (pre ++ rest) dir =
        stageLoop selectAll rest (dir ++ pre.map (fun t => (t ++ ".json", data t))) := by
  intro pre
  induction pre with
  | nil => intro rest dir _ _ _; simp
  | cons t ts ih =>
    intro rest dir hnd hok hfresh
    have hsel : selectAll t = .ok (data t) := hok t (List.mem_cons_self t ts)
    simp only [List.cons_append, stageLoop, hsel]
    rw [assocSet_fresh dir (t ++ ".json") (data t)
      (fun p hp => hfresh t (List.mem_cons_self t ts) p hp)]
    rw [show ts.append rest = ts ++ rest from rfl]
    rw [ih rest (dir ++ [(t ++ ".json", data t)]) (List.Nodup.of_cons hnd)
      (fun u hu => hok u (List.mem_cons_of_mem t hu))
      ?_]
    · simp
    · intro u hu p hp
      rcases List.mem_append.mp hp with hpd | hpn
      · exact hfresh u (List.mem_cons_of_mem t hu) p hpd
      · rw [List.mem_singleton] at hpn
        subst hpn
        intro hcontra
        have : t = u := appendRightCancelS t u ".json" hcontra
        subst this
        exact (List.nodup_cons.mp hnd).1 hu

theorem tableNameOf_append_json (t : String) (h : hasChar t.data '.' = false) :
    tableNameOf (t ++ ".json") = t := by
  unfold tableNameOf
  have hd : (t ++ ".json").data = t.data ++ '.' :: "json".data := by
    rw [strDataAppend]
  rw [hd, splitChar_append_sep '.' t.data "json".data (hasChar_false t.data '.' h)]
  simp [strOfData]

theorem normalize_eq_capitalize_filter (t : String) :
    normalizeTableName t = jsCapitalize (removeUnderscores t) := by
  unfold normalizeTableName removeUnderscores
  by_cases h : hasChar t.data '_' = true
  · rw [h]
    simp only [if_pos]
    rw [concatAll_splitChar]
  · rw [Bool.not_eq_true] at h
    rw [h]
    simp only [Bool.false_eq_true, if_false]
    have : t.data.filter (fun c => c != '_') = t.data := by
      rw [List.filter_eq_self]
      intro a ha
      have := hasChar_false t.data '_' h a ha
      simpa using this
    rw [this, strOfData]

theorem fieldDefinition_has_default (dt : String → Option String) (col : Column) :
    strHas ("default: " ++ (defaultText col.default ++ ",")) (fieldDefinition dt col) = true := by
  unfold fieldDefinition
  simp only [strAppendAssoc]
  apply strHas_extend
  apply strHas_extend
  apply strHas_extend
  apply strHas_extend
  apply strHas_extend
  apply strHas_extend
  rw [show (",\n                            default: " : String) =
      ",\n                            " ++ "default: " from by decide]
  rw [strAppendAssoc]
  apply strHas_extend
  apply strHas_of_starts
  rw [show ("default: " ++ (defaultText col.default ++ ",") : String) =
      "default: " ++ (defaultText col.default ++ ",") from rfl]
  rw [show ("default: " ++ (defaultText col.default ++ ",\n                    \x7d,") : String) =
      "default: " ++ (defaultText col.default ++ ",\n                    \x7d,") from rfl]
  have h1 := strStarts_cancelS "default: " (defaultText col.default ++ ",")
    (defaultText col.default ++ ",\n                    \x7d,")
  rw [h1]
  have h2 := strStarts_cancelS (defaultText col.default) "," ",\n                    \x7d,"
  rw [h2]
  decide

theorem fieldDefinition_has_type (dt : String → Option String) (col : Column) :
    strHas ("type: " ++ (typeText dt col.type ++ ",")) (fieldDefinition dt col) = true := by
  unfold fieldDefinition
  simp only [strAppendAssoc]
  apply strHas_extend
  apply strHas_extend
  rw [show (": \x7b\n                            type: " : String) =
      ": \x7b\n                            " ++ "type: " from by decide]
  rw [strAppendAssoc]
  apply strHas_extend
  apply strHas_of_starts
  have h1 := strStarts_cancelS "type: " (typeText dt col.type ++ ",")
    (typeText dt col.type ++ (",\n                            required: " ++ (requiredText col.null ++ (",\n                            default: " ++ (defaultText col.default ++ ",\n                    \x7d,")))))
  rw [h1]
  have h2 := strStarts_cancelS (typeText dt col.type) ","
    (",\n                            required: " ++ (requiredText col.null ++ (",\n                            default: " ++ (defaultText col.default ++ ",\n                    \x7d,"))))
  rw [h2]
  rw [show (",\n                            required: " : String) =
      "," ++ "\n                            required: " from by decide]
  rw [strAppendAssoc]
  exact strStarts_selfS "," _

theorem processSchemafile_eq (describe : String → List Column) (dt : String → Option String)
    (st : MigrateState) (f : String) :
    processSchemafile describe dt st f =
      { st with
          modelschemas := assocSet st.modelschemas f (modelNameOf f),
          modelsdirectory := some (assocSet (st.modelsdirectory.getD [])
            (modelNameOf f ++ ".ts")
            (modelFileContent dt (modelNameOf f) (describe (tableNameOf f)))) } := by
  obtain ⟨ms, dd, md, msch⟩ := st
  cases md <;> rfl

theorem foldl_process_keys (describe : String → List Column) (dt : String → Option String) :
    ∀ (ks : List String) (st : MigrateState), ks.Nodup →
      (∀ k ∈ ks, ∀ p ∈ st.modelschemas, p.1 ≠ k) →
      ((ks.foldl (processSchemafile describe dt) st).modelschemas).map (fun p => p.1) =
        st.modelschemas.map (fun p => p.1) ++ ks := by
  intro ks
  induction ks with
  | nil => intro st _ _; simp
  | cons k ks ih =>
    intro st hnd hfresh
    simp only [List.foldl_cons]
    have hstep : (processSchemafile describe dt st k).modelschemas =
        st.modelschemas ++ [(k, modelNameOf k)] := by
      rw [processSchemafile_eq]
      exact assocSet_fresh st.modelschemas k (modelNameOf k)
        (fun p hp => hfresh k (List.mem_cons_self k ks) p hp)
    rw [ih (processSchemafile describe dt st k) (List.Nodup.of_cons hnd) ?_, hstep]
    · simp
    · intro u hu p hp
      rw [hstep] at hp
      rcases List.mem_append.mp hp with hpo | hpn
      · exact hfresh u (List.mem_cons_of_mem k hu) p hpo
      · rw [List.mem_singleton] at hpn
        subst hpn
        intro hc
        have hku : k = u := hc
        subst hku
        exact (List.nodup_cons.mp hnd).1 hu

/-- C1: with a one-entry model mapping (`users.json` → `Users`) and the
staged artifact present, `populateMongo` reads the artifact and logs the
parsed rows — and performs no document write: no `insertDocument` action
into any collection ever occurs, contradicting both the claim and the
method's own doc comment ("Write / populate retrieved data into MongoDB").
-/
theorem C1_no_documents_written :
    populateMongo stC1 = .ok [.readArtifact "users.json", .consoleLog "users.json"] ∧
    ((populateMongo stC1).toOption.getD []).all (fun a => !a.isInsert) = true := by decide

/-- C2: after `retrieveMysqlData` with table set `T` (all row reads
succeeding), the staging directory exists and contains exactly one artifact
`<tableName>.json` per table of `T`, in discovery order, and nothing else;
every pre-existing artifact is gone and a missing directory has been
created. -/
theorem C2_staging_exact (selectAll : String → Except String String) (data : String → String)
    (T : List String) (st : MigrateState)
    (hm : st.models = some T) (hnd : T.Nodup)
    (hok : ∀ t ∈ T, selectAll t = .ok (data t)) :
    retrieveMysqlData selectAll st =
      (.ok (), { st with datafilesdir := some (T.map (fun t => (t ++ ".json", data t))) }) := by
  obtain ⟨ms, dd, md, msch⟩ := st
  simp only at hm
  subst hm
  unfold retrieveMysqlData
  simp only
  have hclear :
      (match dd with
        | some files => files.foldl (fun acc f => fsUnlink acc f.1) files
        | none => ([] : List (String × String))) = [] := by
    cases dd with
    | none => rfl
    | some files => exact foldl_unlink_nil files files (fun p hp => ⟨p, hp, rfl⟩)
  rw [hclear]
  rw [stageLoop_ok selectAll data T [] hnd hok (fun t _ p hp => absurd hp (List.not_mem_nil p))]
  simp

theorem C2_staging_exact_witness :
    retrieveMysqlData selC2 stC2 =
      (.ok (), { stC2 with datafilesdir := some [("users.json", "[]"), ("order_items.json", "[]")] }) := by
  have h := C2_staging_exact selC2 (fun _ => "[]") ["users", "order_items"] stC2 rfl
    (by decide) (fun t _ => rfl)
  simpa using h

/-- C3 (counterexample to the claim as stated): the normalizer maps
`user_profile` to `Userprofile`, not to the camel-cased `UserProfile`
stated by the spec. -/
theorem C3_counterexample :
    normalizeTableName "user_profile" = "Userprofile" ∧
    "Userprofile" ≠ "UserProfile" := by decide

/-- C3 (amended): the normalizer sends `user_profile` to `Userprofile`
(only the first character of the underscore-stripped concatenation is
upper-cased), sends `orders` to `Orders`, and sends any name without an
underscore to the same name with its first character capitalized. -/
theorem C3_normalizer (name : String) (h : hasChar name.data '_' = false) :
    normalizeTableName "user_profile" = "Userprofile" ∧
    normalizeTableName "orders" = "Orders" ∧
    normalizeTableName name = jsCapitalize name := by
  refine ⟨by decide, by decide, ?_⟩
  unfold normalizeTableName
  rw [h]
  simp

theorem C3_normalizer_witness :
    normalizeTableName "user_profile" = "Userprofile" ∧
    normalizeTableName "orders" = "Orders" ∧
    normalizeTableName "orders" = jsCapitalize "orders" :=
  C3_normalizer "orders" (by decide)

/-- C4: for a staged artifact `<t>.json` (with a dot-free table name `t`),
the candidate model name used by schema generation is obtained by removing
the underscore separators of `t` (concatenating the surrounding segments)
and capitalizing the first character of the result; in particular
`order_items.json` yields `Orderitems`. -/
theorem C4_model_name (t : String) (h : hasChar t.data '.' = false) :
    modelNameOf (t ++ ".json") = jsCapitalize (removeUnderscores t) ∧
    modelNameOf "order_items.json" = "Orderitems" := by
  constructor
  · unfold modelNameOf
    rw [tableNameOf_append_json t h, normalize_eq_capitalize_filter]
  · decide

theorem C4_model_name_witness :
    modelNameOf ("order_items" ++ ".json") = jsCapitalize (removeUnderscores "order_items") ∧
    modelNameOf "order_items.json" = "Orderitems" :=
  C4_model_name "order_items" (by decide)

/-- C5 (counterexample to the claim as stated): for a column with no
default, the generated field descriptor is not default-free — the code
interpolates the `null` value, so the emitted text contains
`default: null`; the spec-worded mapping (`specTargetDefault`) would have
produced no default at all. -/
theorem C5_counterexample :
    strHas "default: null," (fieldDefinition (fun _ => some "String")
      ⟨"email", "varchar(255)", "YES", none⟩) = true ∧
    specTargetDefault none = none := by decide

/-- C5 (amended): the emitted descriptor's default is `Date.now` when the
column default is the `CURRENT_TIMESTAMP` sentinel and the literal default
verbatim otherwise; a column with no default still gets a default entry,
whose value is the literal `null` (the entry is not absent). -/
theorem C5_default_mapping (dt : String → Option String) (col : Column) :
    (col.default = some "CURRENT_TIMESTAMP" →
      strHas "default: Date.now," (fieldDefinition dt col) = true) ∧
    (∀ d, col.default = some d → d ≠ "CURRENT_TIMESTAMP" →
      strHas ("default: " ++ (d ++ ",")) (fieldDefinition dt col) = true) ∧
    (col.default = none → strHas "default: null," (fieldDefinition dt col) = true) := by
  refine ⟨?_, ?_, ?_⟩
  · intro h
    have hfd := fieldDefinition_has_default dt col
    have hdt : defaultText col.default = "Date.now" := by
      rw [h]
      rfl
    rw [hdt] at hfd
    rw [show ("default: " ++ ("Date.now" ++ ",") : String) = "default: Date.now," from by decide] at hfd
    exact hfd
  · intro d h hne
    have hfd := fieldDefinition_has_default dt col
    have hdt : defaultText col.default = d := by
      rw [h]
      unfold defaultText
      simp [hne]
    rw [hdt] at hfd
    exact hfd
  · intro h
    have hfd := fieldDefinition_has_default dt col
    have hdt : defaultText col.default = "null" := by
      rw [h]
      rfl
    rw [hdt] at hfd
    rw [show ("default: " ++ ("null" ++ ",") : String) = "default: null," from by decide] at hfd
    exact hfd

theorem C5_default_mapping_witness :
    strHas "default: Date.now," (fieldDefinition (fun _ => some "Date")
      ⟨"created_at", "datetime", "NO", some "CURRENT_TIMESTAMP"⟩) = true ∧
    strHas ("default: " ++ ("1" ++ ",")) (fieldDefinition (fun _ => some "Number")
      ⟨"qty", "int(11)", "NO", some "1"⟩) = true ∧
    strHas "default: null," (fieldDefinition (fun _ => some "String")
      ⟨"email", "varchar(255)", "YES", none⟩) = true :=
  ⟨(C5_default_mapping (fun _ => some "Date")
      ⟨"created_at", "datetime", "NO", some "CURRENT_TIMESTAMP"⟩).1 rfl,
   (C5_default_mapping (fun _ => some "Number")
      ⟨"qty", "int(11)", "NO", some "1"⟩).2.1 "1" rfl (by decide),
   (C5_default_mapping (fun _ => some "String")
      ⟨"email", "varchar(255)", "YES", none⟩).2.2 rfl⟩

/-- C6: schema generation against an empty staging directory fails with the
empty-staging error and leaves the whole state — previously generated
schema definitions and the model mapping included — untouched. -/
theorem C6_empty_staging (describe : String → List Column) (dt : String → Option String)
    (st : MigrateState) (h : st.datafilesdir = some []) :
    generateMongoSchemas describe dt st = (.error "Empty directory!", st) := by
  obtain ⟨ms, dd, md, msch⟩ := st
  simp only at h
  subst h
  rfl

theorem C6_empty_staging_witness :
    generateMongoSchemas (fun _ => []) (fun _ => none) stC6 = (.error "Empty directory!", stC6) :=
  C6_empty_staging (fun _ => []) (fun _ => none) stC6 rfl

/-- C7 (counterexample to the claim as stated): invoking generation with a
mapping left over from a prior invocation (one stale entry `old.json`) and
a staging directory holding the single artifact `users.json` yields a
mapping with two entries, the stale one included — the mapping is not
rebuilt from empty and does not have exactly one entry per staged
artifact. -/
theorem C7_counterexample :
    (generateMongoSchemas describeC7 dtC7 stC7stale).2.modelschemas =
      [("old.json", "Old"), ("users.json", "Users")] ∧
    (generateMongoSchemas describeC7 dtC7 stC7stale).2.datafilesdir =
      some [("users.json", "[]")] := by decide

/-- C7 (amended): the model mapping is created empty by the constructor and
is never cleared by schema generation, so entries from earlier invocations
persist; on an invocation whose mapping starts empty, generation succeeds
and the resulting mapping has exactly one entry per staged artifact, keyed
by the artifact filename, in directory order. -/
theorem C7_fresh_mapping (describe : String → List Column) (dt : String → Option String)
    (st : MigrateState) (dfs : List (String × String))
    (hd : st.datafilesdir = some dfs) (hne : dfs ≠ [])
    (hnd : (dfs.map (fun p => p.1)).Nodup) (h0 : st.modelschemas = []) :
    (generateMongoSchemas describe dt st).1 = .ok () ∧
    ((generateMongoSchemas describe dt st).2.modelschemas).map (fun p => p.1) =
      dfs.map (fun p => p.1) := by
  obtain ⟨ms, dd, md, msch⟩ := st
  simp only at hd h0
  subst hd
  subst h0
  unfold generateMongoSchemas
  simp only
  have hlen : ¬ ((dfs.map (fun p => p.1)).length < 1) := by
    rw [List.length_map]
    rcases dfs with _ | ⟨p, ps⟩
    · exact absurd rfl hne
    · simp
  rw [if_neg hlen]
  refine ⟨rfl, ?_⟩
  rw [foldl_process_keys describe dt (dfs.map (fun p => p.1)) _ hnd ?_]
  · simp
  · intro k _ p hp
    exact absurd hp (List.not_mem_nil p)

theorem C7_fresh_mapping_witness :
    (generateMongoSchemas describeC7 dtC7 stC7fresh).1 = .ok () ∧
    ((generateMongoSchemas describeC7 dtC7 stC7fresh).2.modelschemas).map (fun p => p.1) =
      [("users.json", "[]")].map (fun p => p.1) :=
  C7_fresh_mapping describeC7 dtC7 stC7fresh [("users.json", "[]")] rfl (by decide) (by decide) rfl

/-- C8 (counterexample to the claim as stated): generating schemas for a
table with a `geometry` column while the datatype lookup maps only `int`
raises no error — the run succeeds and the generated `Geo.ts` contains
`type: undefined` — so no fatal unmapped-type error is surfaced. -/
theorem C8_counterexample :
    (generateMongoSchemas describeC8 dtC7 stC8).1 = .ok () ∧
    ((generateMongoSchemas describeC8 dtC7 stC8).2.modelsdirectory.getD []).any
      (fun p => p.1 == "Geo.ts" && strHas "type: undefined," p.2) = true := by decide

/-- C8 (amended): a column whose base type (parameters stripped) is absent
from the datatype lookup raises no error at all — generation completes with
success and the generated field descriptor's type is the literal text
`undefined`, i.e. the lookup failure is silently swallowed. -/
theorem C8_unmapped_silent (describe : String → List Column) (dt : String → Option String)
    (st : MigrateState) (dfs : List (String × String)) (col : Column)
    (hd : st.datafilesdir = some dfs) (hne : dfs ≠ [])
    (hcol : dt (baseTypeOf col.type) = none) :
    (generateMongoSchemas describe dt st).1 = .ok () ∧
    typeText dt col.type = "undefined" ∧
    strHas "type: undefined," (fieldDefinition dt col) = true := by
  have hty : typeText dt col.type = "undefined" := by
    unfold typeText
    rw [hcol]
  refine ⟨?_, hty, ?_⟩
  · obtain ⟨ms, dd, md, msch⟩ := st
    simp only at hd
    subst hd
    unfold generateMongoSchemas
    simp only
    have hlen : ¬ ((dfs.map (fun p => p.1)).length < 1) := by
      rw [List.length_map]
      rcases dfs with _ | ⟨p, ps⟩
      · exact absurd rfl hne
      · simp
    rw [if_neg hlen]
  · have h := fieldDefinition_has_type dt col
    rw [hty] at h
    rw [show ("type: " ++ ("undefined" ++ ",") : String) = "type: undefined," from by decide] at h
    exact h

theorem C8_unmapped_silent_witness :
    (generateMongoSchemas describeC8 dtC7 stC8).1 = .ok () ∧
    typeText dtC7 "geometry" = "undefined" ∧
    strHas "type: undefined," (fieldDefinition dtC7 ⟨"shape", "geometry", "NO", none⟩) = true :=
  C8_unmapped_silent describeC8 dtC7 stC8 [("geo.json", "[]")] ⟨"shape", "geometry", "NO", none⟩
    rfl (by decide) rfl

/-- C9 (counterexample to the claim as stated): the error surfaced for a
row-read failure on table `users` is the raw driver error `ECONNRESET`,
which does not carry the offending table name. -/
theorem C9_counterexample :
    (retrieveMysqlData selC9 stC9).1 = .error "ECONNRESET" ∧
    strHas "users" "ECONNRESET" = false := by decide

/-- C9 (amended): a failing row read during staging aborts the remaining
stage operations — no table after the failing one is staged — and the
artifacts already written for earlier tables stay in place; the surfaced
error is the underlying query error itself, unchanged (no table name is
attached by the code). -/
theorem C9_abort_keep (selectAll : String → Except String String) (data : String → String)
    (pre post : List String) (t e : String) (st : MigrateState)
    (hm : st.models = some (pre ++ t :: post))
    (hnd : pre.Nodup)
    (hok : ∀ m ∈ pre, selectAll m = .ok (data m))
    (hfail : selectAll t = .error e) :
    retrieveMysqlData selectAll st =
      (.error e, { st with datafilesdir := some (pre.map (fun m => (m ++ ".json", data m))) }) := by
  obtain ⟨ms, dd, md, msch⟩ := st
  simp only at hm
  subst hm
  unfold retrieveMysqlData
  simp only
  have hclear :
      (match dd with
        | some files => files.foldl (fun acc f => fsUnlink acc f.1) files
        | none => ([] : List (String × String))) = [] := by
    cases dd with
    | none => rfl
    | some files => exact foldl_unlink_nil files files (fun p hp => ⟨p, hp, rfl⟩)
  rw [hclear]
  rw [stageLoop_split selectAll data pre (t :: post) [] hnd hok
    (fun u _ p hp => absurd hp (List.not_mem_nil p))]
  simp only [stageLoop, hfail, List.nil_append]

theorem C9_abort_keep_witness :
    retrieveMysqlData selC9 stC9 =
      (.error "ECONNRESET", { stC9 with datafilesdir := some [("customers.json", "rows-customers")] }) := by
  have h := C9_abort_keep selC9 (fun m => "rows-" ++ m) ["customers"] ["orders"] "users"
    "ECONNRESET" stC9 rfl (by decide)
    (by intro m hm; rw [List.mem_singleton] at hm; subst hm; rfl) (by decide)
  simpa using h

/-- C10: two distinct staged artifacts whose table names normalize to the
same model name generate without error; the mapping gets one entry per
artifact (both valued with the shared model name) and the schema file of
the later artifact overwrites the earlier one's, so the models directory
ends with the single file built from the later artifact's table. -/
theorem C10_collision (describe : String → List Column) (dt : String → Option String)
    (st : MigrateState) (f1 f2 c1 c2 : String)
    (hd : st.datafilesdir = some [(f1, c1), (f2, c2)])
    (hne : f1 ≠ f2) (hcol : modelNameOf f1 = modelNameOf f2)
    (h0 : st.modelschemas = []) :
    (generateMongoSchemas describe dt st).1 = .ok () ∧
    (generateMongoSchemas describe dt st).2.modelschemas =
      [(f1, modelNameOf f1), (f2, modelNameOf f2)] ∧
    (generateMongoSchemas describe dt st).2.modelsdirectory =
      some [(modelNameOf f2 ++ ".ts",
             modelFileContent dt (modelNameOf f2) (describe (tableNameOf f2)))] := by
  obtain ⟨ms, dd, md, msch⟩ := st
  simp only at hd h0
  subst hd
  subst h0
  rw [hcol]
  unfold generateMongoSchemas
  simp only [List.map_cons, List.map_nil]
  rw [if_neg (by simp)]
  simp only [List.foldl_cons, List.foldl_nil]
  rw [processSchemafile_eq, processSchemafile_eq]
  simp only
  have hmd : (match md with
      | none => none
      | some models => some (models.foldl (fun acc f => fsUnlink acc f.1) models) :
        Option (List (String × String))).getD [] = [] := by
    cases md with
    | none => rfl
    | some mm =>
      simp only [Option.getD_some]
      exact foldl_unlink_nil mm mm (fun p hp => ⟨p, hp, rfl⟩)
  rw [hmd]
  rw [assocSet_nil, assocSet_nil]
  rw [hcol]
  rw [assocSet_fresh [(f1, modelNameOf f2)] f2 (modelNameOf f2) ?hfr]
  case hfr =>
    intro p hp
    rw [List.mem_singleton] at hp
    subst hp
    exact hne
  simp only [Option.getD_some]
  rw [assocSet_replace_single]
  exact ⟨trivial, rfl, rfl⟩

theorem C10_collision_witness :
    (generateMongoSchemas describeC10 dtC7 stC10).1 = .ok () ∧
    (generateMongoSchemas describeC10 dtC7 stC10).2.modelschemas =
      [("order_items.json", modelNameOf "order_items.json"),
       ("orderitems.json", modelNameOf "orderitems.json")] ∧
    (generateMongoSchemas describeC10 dtC7 stC10).2.modelsdirectory =
      some [(modelNameOf "orderitems.json" ++ ".ts",
             modelFileContent dtC7 (modelNameOf "orderitems.json")
               (describeC10 (tableNameOf "orderitems.json")))] := by
  have h := C10_collision describeC10 dtC7 stC10 "order_items.json" "orderitems.json" "[]" "[]"
    rfl (by decide) (by decide) rfl
  rw [show modelNameOf "order_items.json" = modelNameOf "orderitems.json" from by decide] at h ⊢
  exact h
